import Mathlib

/-!
Shallow embedding of `src/dt_example.py`, a single-file pygame example of
delta-time based 8-directional movement.

Modelling conventions:
* Python floats are modelled by `ℚ` (the program only adds and multiplies,
  so exact rational arithmetic captures the intended real-number semantics).
* A pygame `Rect` stores integer coordinates; assigning a float pair to
  `rect.center` converts each coordinate with C truncation toward zero,
  modelled by `pyInt`.  Getting/setting `center` uses C integer division
  by 2 (`Int.tdiv`), as in pygame's `rect.c`.
* Pygame surfaces are irrelevant to the behaviour of the entity; an image
  is modelled as an opaque numeric identifier, and blitting onto a surface
  as consing that identifier onto a list.
-/

namespace DtExample

/-- The four directional keys of `DIRECT_DICT` (`pg.K_LEFT` etc.). -/
inductive Key
  | left
  | right
  | up
  | down
deriving DecidableEq

/-- `DIRECT_DICT`: maps each directional key to its unit displacement
vector, in the dictionary's insertion order. -/
def DIRECT_DICT : List (Key × ℤ × ℤ) :=
  [(Key.left, (-1, 0)), (Key.right, (1, 0)), (Key.up, (0, -1)), (Key.down, (0, 1))]

/-- A pygame `Rect`: integer position and size. -/
structure Rect where
  x : ℤ
  y : ℤ
  w : ℤ
  h : ℤ
deriving DecidableEq

/-- `rect.center` getter: `(x + w / 2, y + h / 2)` with C truncating
division. -/
def rectCenter (r : Rect) : ℤ × ℤ :=
  (r.x + r.w.tdiv 2, r.y + r.h.tdiv 2)

/-- `rect.center = c` setter: `x = c1 - w / 2`, `y = c2 - h / 2` with C
truncating division. -/
def setCenter (r : Rect) (c : ℤ × ℤ) : Rect :=
  { r with x := c.1 - r.w.tdiv 2, y := c.2 - r.h.tdiv 2 }

/-- `a.contains(b)`: pygame's test that `b` is completely inside `a`. -/
def rectContains (a b : Rect) : Bool :=
  decide (a.x ≤ b.x ∧ a.y ≤ b.y ∧ b.x + b.w ≤ a.x + a.w ∧ b.y + b.h ≤ a.y + a.h ∧
    b.x < a.x + a.w ∧ b.y < a.y + a.h)

/-- One axis of pygame's `clamp_ip`: if the rect is at least as wide as the
bound it is centered, otherwise it is moved to the nearest in-bounds
position. -/
def clampCoord (x w bx bw : ℤ) : ℤ :=
  if bw ≤ w then bx + bw.tdiv 2 - w.tdiv 2
  else if x < bx then bx
  else if bx + bw < x + w then bx + bw - w
  else x

/-- `rect.clamp_ip(bound)`. -/
def rectClamp (r bound : Rect) : Rect :=
  { r with x := clampCoord r.x r.w bound.x bound.w,
           y := clampCoord r.y r.h bound.y bound.h }

/-- Conversion of an exact (float) coordinate to a rect coordinate:
C truncation toward zero, as pygame applies to float rect assignments. -/
def pyInt (q : ℚ) : ℤ :=
  q.num.tdiv (q.den : ℤ)

/-- `SCREEN_SIZE = (500, 500)`. -/
def SCREEN_SIZE : ℤ × ℤ := (500, 500)

/-- The screen rect `(0, 0, 500, 500)` of the 500×500 display surface. -/
def screenRect : Rect :=
  { x := 0, y := 0, w := SCREEN_SIZE.1, h := SCREEN_SIZE.2 }

/-- `Player.SIZE = (100, 100)`. -/
def PLAYER_SIZE : ℤ × ℤ := (100, 100)

/-- `Player.make_image`: the surface it builds is opaque to the entity's
behaviour, so it is modelled as an identifier. -/
def make_image : ℕ := 0

/-- The `Player` state: image, display rect, exact float position
`true_pos`, and speed in pixels per second. -/
structure Player where
  image : ℕ
  rect : Rect
  true_pos : ℚ × ℚ
  speed : ℚ
deriving DecidableEq

/-- `Player.__init__(pos, speed)`: the rect is the 100×100 image rect with
its center at `pos`, and `true_pos` starts as the (integer) rect center. -/
def mkPlayer (pos : ℤ × ℤ) (speed : ℚ) : Player :=
  let r := setCenter { x := 0, y := 0, w := PLAYER_SIZE.1, h := PLAYER_SIZE.2 } pos
  { image := make_image, rect := r,
    true_pos := (((rectCenter r).1 : ℚ), ((rectCenter r).2 : ℚ)),
    speed := speed }

/-- The integration loop of `Player.update`: for each key of `DIRECT_DICT`
that is held, add that key's unit vector times `speed` times `dt` to
`true_pos`. -/
def Player.integrate (pl : Player) (keys : Key → Bool) (dt : ℚ) : ℚ × ℚ :=
  DIRECT_DICT.foldl
    (fun p kd =>
      if keys kd.1 then
        (p.1 + (kd.2.1 : ℚ) * pl.speed * dt, p.2 + (kd.2.2 : ℚ) * pl.speed * dt)
      else p)
    pl.true_pos

/-- The rect produced by `self.rect.center = self.true_pos` after
integration: the old rect re-centered at the truncated new exact
position. -/
def Player.movedRect (pl : Player) (keys : Key → Bool) (dt : ℚ) : Rect :=
  setCenter pl.rect (pyInt (pl.integrate keys dt).1, pyInt (pl.integrate keys dt).2)

/-- `Player.clamp(screen_rect)`: when the rect is not contained in the
screen it is clamped there, and `true_pos` is reset to the rect center. -/
def Player.clamp (pl : Player) (screen_rect : Rect) : Player :=
  if rectContains screen_rect pl.rect then pl
  else
    let r := rectClamp pl.rect screen_rect
    { pl with rect := r,
              true_pos := (((rectCenter r).1 : ℚ), ((rectCenter r).2 : ℚ)) }

/-- `Player.update(keys, screen_rect, dt)`: integrate `true_pos`, set the
rect center from it, then clamp. -/
def Player.update (pl : Player) (keys : Key → Bool) (screen_rect : Rect) (dt : ℚ) : Player :=
  Player.clamp
    { pl with true_pos := pl.integrate keys dt, rect := pl.movedRect keys dt }
    screen_rect

/-- `Player.draw(surface)`: blits the image onto the surface; the player is
untouched.  A surface is modelled as the list of blitted image ids. -/
def Player.draw (pl : Player) (surface : List ℕ) : Player × List ℕ :=
  (pl, pl.image :: surface)

/-- The sum, over the held directional keys, of those keys' unit direction
vectors (the spec's combined unnormalized direction). -/
def dirSum (keys : Key → Bool) : ℤ × ℤ :=
  DIRECT_DICT.foldl (fun a kd => if keys kd.1 then (a.1 + kd.2.1, a.2 + kd.2.2) else a)
    (0, 0)

/-- A pygame event, as far as `App.event_loop` inspects one: `pg.QUIT`, a
key press/release (which makes the app re-read the full pressed-key
snapshot), or anything else. -/
inductive Ev
  | quit
  | key (pressed : Key → Bool)
  | other

/-- `e.type == pg.QUIT`. -/
def isQuit : Ev → Bool
  | Ev.quit => true
  | _ => false

/-- The mutable state of `App`: quit flag, held-key snapshot, player, and
the (fixed) screen rect. -/
structure AppState where
  done : Bool
  keys : Key → Bool
  player : Player
  screen_rect : Rect

/-- One event of `App.event_loop`: `pg.QUIT` sets `done`, a key event
replaces the held-key snapshot. -/
def evStep (s : AppState) (e : Ev) : AppState :=
  match e with
  | Ev.quit => { s with done := true }
  | Ev.key pressed => { s with keys := pressed }
  | Ev.other => s

/-- `App.event_loop`: processes the polled events in order. -/
def eventLoop (a : AppState) (events : List Ev) : AppState :=
  events.foldl evStep a

/-- `App.update(dt)`: forwards `dt` to the player. -/
def appUpdate (a : AppState) (dt : ℚ) : AppState :=
  { a with player := a.player.update a.keys a.screen_rect dt }

/-- `App.render()`: draws background and player and flips the display;
no `App` state changes. -/
def render (a : AppState) : AppState :=
  a

/-- One frame's worth of external input to the main loop: the events the
queue returns this iteration, and the milliseconds `clock.tick(fps)`
reports at the end of the iteration. -/
structure Frame where
  events : List Ev
  tick : ℚ

/-- `App.main_loop` starting from delta `dt`: while not done, run
`event_loop`, `update(dt)`, `render()`, then measure
`dt = clock.tick(fps)/1000` for the next iteration.  The result records,
per executed iteration, the delta passed to `update` and the state after
the iteration's body.  The frame list bounds how much external input is
available (the real loop runs as long as input keeps coming). -/
def mainLoop : AppState → ℚ → List Frame → List (ℚ × AppState)
  | _, _, [] => []
  | a, dt, f :: fs =>
    if a.done then []
    else
      let a1 := render (appUpdate (eventLoop a f.events) dt)
      (dt, a1) :: mainLoop a1 (f.tick / 1000) fs

/-- `App.__init__` followed by `main_loop`'s `dt = 0` initialisation: the
player starts centered in the screen with speed 300; the initial held-key
snapshot comes from `pg.key.get_pressed()`. -/
def initApp (keys0 : Key → Bool) : AppState :=
  { done := false, keys := keys0,
    player := mkPlayer (rectCenter screenRect) 300,
    screen_rect := screenRect }

/-- The key snapshot with `K_UP` and `K_LEFT` held (diagonal input). -/
def keysUpLeft : Key → Bool
  | Key.up => true
  | Key.left => true
  | _ => false

/-- The key snapshot with only `K_LEFT` held (axis input). -/
def keysLeftOnly : Key → Bool
  | Key.left => true
  | _ => false

/-! ## Helper lemmas -/

/-- Sequentially adding the held keys' contributions is the same as adding
`dirSum keys` (scaled) once: addition over `ℚ` is commutative and
associative. -/
theorem integrate_eq (pl : Player) (keys : Key → Bool) (dt : ℚ) :
    pl.integrate keys dt =
      (pl.true_pos.1 + ((dirSum keys).1 : ℚ) * pl.speed * dt,
       pl.true_pos.2 + ((dirSum keys).2 : ℚ) * pl.speed * dt) := by
  cases hl : keys Key.left <;> cases hr : keys Key.right <;>
    cases hu : keys Key.up <;> cases hd : keys Key.down <;>
      simp only [Player.integrate, dirSum, DIRECT_DICT, List.foldl_cons, List.foldl_nil,
        hl, hr, hu, hd, if_true, if_false, Bool.false_eq_true, ite_false, ite_true] <;>
      refine Prod.ext_iff.mpr ⟨?_, ?_⟩ <;> dsimp only <;> push_cast <;> ring

/-- Integrating with `dt = 0` does not move the exact position. -/
theorem integrate_zero (pl : Player) (keys : Key → Bool) :
    pl.integrate keys 0 = pl.true_pos := by
  rw [integrate_eq]
  simp

/-- Integrating with no held key does not move the exact position. -/
theorem integrate_none (pl : Player) (dt : ℚ) :
    pl.integrate (fun _ => false) dt = pl.true_pos := by
  simp [Player.integrate, DIRECT_DICT]

/-- Re-centering a rect at its own center is the identity. -/
theorem setCenter_rectCenter (r : Rect) : setCenter r (rectCenter r) = r := by
  cases r
  simp [setCenter, rectCenter]

/-- `clamp` with the rect already contained is the identity. -/
theorem clamp_of_contains (pl : Player) (screen : Rect)
    (h : rectContains screen pl.rect = true) : pl.clamp screen = pl := by
  simp [Player.clamp, h]

/-- One axis of `clamp_ip` lands inside the bound when the rect fits. -/
theorem clampCoord_le (x w bx bw : ℤ) (h0 : 0 < w) (hw : w ≤ bw) :
    bx ≤ clampCoord x w bx bw ∧ clampCoord x w bx bw + w ≤ bx + bw := by
  unfold clampCoord
  split_ifs with h1 h2 h3
  · have hweq : w = bw := le_antisymm hw h1
    subst hweq
    generalize w.tdiv 2 = t
    omega
  · omega
  · omega
  · omega

/-- A rect that fits inside the bound is contained there after `clamp_ip`. -/
theorem rectClamp_contains (r b : Rect) (hw0 : 0 < r.w) (hw : r.w ≤ b.w)
    (hh0 : 0 < r.h) (hh : r.h ≤ b.h) :
    rectContains b (rectClamp r b) = true := by
  have hx := clampCoord_le r.x r.w b.x b.w hw0 hw
  have hy := clampCoord_le r.y r.h b.y b.h hh0 hh
  simp only [rectContains, rectClamp, decide_eq_true_eq]
  exact ⟨hx.1, hy.1, hx.2, hy.2, by omega, by omega⟩

/-- An update that integrates to the same exact position is the identity on
a player whose rect agrees with its exact position and is on screen. -/
theorem update_of_still (pl : Player) (keys : Key → Bool) (screen : Rect) (dt : ℚ)
    (hint : pl.integrate keys dt = pl.true_pos)
    (hsync : rectCenter pl.rect = (pyInt pl.true_pos.1, pyInt pl.true_pos.2))
    (hcont : rectContains screen pl.rect = true) :
    pl.update keys screen dt = pl := by
  have hm : pl.movedRect keys dt = pl.rect := by
    rw [Player.movedRect, hint, ← hsync, setCenter_rectCenter]
  rw [Player.update, hm, hint]
  exact clamp_of_contains pl screen hcont

/-- `event_loop` never touches the player. -/
theorem eventLoop_player (a : AppState) (evs : List Ev) :
    (eventLoop a evs).player = a.player := by
  induction evs generalizing a with
  | nil => rfl
  | cons e evs ih =>
    rw [eventLoop, List.foldl_cons, ← eventLoop, ih]
    cases e <;> rfl

/-- `event_loop` never touches the screen rect. -/
theorem eventLoop_screen (a : AppState) (evs : List Ev) :
    (eventLoop a evs).screen_rect = a.screen_rect := by
  induction evs generalizing a with
  | nil => rfl
  | cons e evs ih =>
    rw [eventLoop, List.foldl_cons, ← eventLoop, ih]
    cases e <;> rfl

/-- The quit flag after `event_loop` is the old flag or the presence of a
`pg.QUIT` event among the polled events. -/
theorem eventLoop_done (a : AppState) (evs : List Ev) :
    (eventLoop a evs).done = (a.done || evs.any isQuit) := by
  induction evs generalizing a with
  | nil => simp [eventLoop]
  | cons e evs ih =>
    rw [eventLoop, List.foldl_cons, ← eventLoop, ih]
    cases e <;> simp [evStep, isQuit, Bool.or_assoc]

/-! ## Claim theorems -/

/-- C1: For every starting exact position, speed, elapsed time `dt ≥ 0` and
combination of held directional keys, the exact position after the
integration step of `Player.update` (before clamping) equals the prior
exact position plus the sum over held keys of that key's unit direction
vector times speed times `dt`. -/
theorem Player_update_integrates_held_keys (pl : Player) (keys : Key → Bool) (dt : ℚ)
    (hdt : 0 ≤ dt) :
    pl.integrate keys dt =
      (pl.true_pos.1 + ((dirSum keys).1 : ℚ) * pl.speed * dt,
       pl.true_pos.2 + ((dirSum keys).2 : ℚ) * pl.speed * dt) :=
  integrate_eq pl keys dt

/-- Witness for C1 at the initial player, all four keys held, `dt = 1`. -/
theorem Player_update_integrates_held_keys_witness :
    (0 : ℚ) ≤ 1 ∧
      (mkPlayer (rectCenter screenRect) 300).integrate (fun _ => true) 1 =
        ((mkPlayer (rectCenter screenRect) 300).true_pos.1 +
            ((dirSum fun _ => true).1 : ℚ) * (mkPlayer (rectCenter screenRect) 300).speed * 1,
         (mkPlayer (rectCenter screenRect) 300).true_pos.2 +
            ((dirSum fun _ => true).2 : ℚ) * (mkPlayer (rectCenter screenRect) 300).speed * 1) :=
  ⟨zero_le_one, Player_update_integrates_held_keys _ _ 1 zero_le_one⟩

/-- C2: After every `Player.update` (for a player whose rect fits in the
screen, as the 100×100 player does in the 500×500 viewport) the display
rect is contained in the viewport; and when clamping occurred (the moved
rect was out of bounds) the exact position equals the clamped display
center exactly. -/
theorem Player_update_stays_on_screen_and_resyncs (pl : Player) (keys : Key → Bool)
    (screen : Rect) (dt : ℚ)
    (hw0 : 0 < pl.rect.w) (hw : pl.rect.w ≤ screen.w)
    (hh0 : 0 < pl.rect.h) (hh : pl.rect.h ≤ screen.h) :
    rectContains screen (pl.update keys screen dt).rect = true ∧
      (rectContains screen (pl.movedRect keys dt) = false →
        (pl.update keys screen dt).true_pos =
          (((rectCenter (pl.update keys screen dt).rect).1 : ℚ),
           ((rectCenter (pl.update keys screen dt).rect).2 : ℚ))) := by
  cases hc : rectContains screen (pl.movedRect keys dt) with
  | true =>
    refine ⟨?_, ?_⟩
    · rw [Player.update, clamp_of_contains _ _ hc]
      exact hc
    · intro h
      exact Bool.noConfusion h
  | false =>
    rw [Player.update]
    have hres : Player.clamp
        { pl with true_pos := pl.integrate keys dt, rect := pl.movedRect keys dt } screen =
        { pl with
            rect := rectClamp (pl.movedRect keys dt) screen,
            true_pos :=
              (((rectCenter (rectClamp (pl.movedRect keys dt) screen)).1 : ℚ),
               ((rectCenter (rectClamp (pl.movedRect keys dt) screen)).2 : ℚ)) } := by
      rw [Player.clamp]
      simp [hc]
    rw [hres]
    exact ⟨rectClamp_contains _ _ hw0 hw hh0 hh, fun _ => rfl⟩

/-- Witness for C2 at the initial player in the real screen, moving left at
speed 300 for one second (which drives the rect out of bounds). -/
theorem Player_update_stays_on_screen_and_resyncs_witness :
    (0 : ℤ) < (mkPlayer (rectCenter screenRect) 300).rect.w ∧
      (mkPlayer (rectCenter screenRect) 300).rect.w ≤ screenRect.w ∧
      (0 : ℤ) < (mkPlayer (rectCenter screenRect) 300).rect.h ∧
      (mkPlayer (rectCenter screenRect) 300).rect.h ≤ screenRect.h ∧
      (rectContains screenRect
          ((mkPlayer (rectCenter screenRect) 300).update keysLeftOnly screenRect 1).rect = true ∧
        (rectContains screenRect
            ((mkPlayer (rectCenter screenRect) 300).movedRect keysLeftOnly 1) = false →
          ((mkPlayer (rectCenter screenRect) 300).update keysLeftOnly screenRect 1).true_pos =
            (((rectCenter
                ((mkPlayer (rectCenter screenRect) 300).update keysLeftOnly screenRect 1).rect).1 : ℚ),
             ((rectCenter
                ((mkPlayer (rectCenter screenRect) 300).update keysLeftOnly screenRect 1).rect).2 : ℚ)))) :=
  ⟨by decide, by decide, by decide, by decide,
    Player_update_stays_on_screen_and_resyncs _ keysLeftOnly screenRect 1
      (by decide) (by decide) (by decide) (by decide)⟩

/-- C3: for every speed and `dt > 0`, holding up and left simultaneously
produces a displacement whose Euclidean magnitude is `√2` times the
magnitude of the displacement when only left is held. -/
theorem diagonal_displacement_sqrt_two (pl : Player) (dt : ℚ) (hdt : 0 < dt) :
    Real.sqrt ((((pl.integrate keysUpLeft dt).1 - pl.true_pos.1 : ℚ) : ℝ) ^ 2 +
        (((pl.integrate keysUpLeft dt).2 - pl.true_pos.2 : ℚ) : ℝ) ^ 2) =
      Real.sqrt 2 *
        Real.sqrt ((((pl.integrate keysLeftOnly dt).1 - pl.true_pos.1 : ℚ) : ℝ) ^ 2 +
          (((pl.integrate keysLeftOnly dt).2 - pl.true_pos.2 : ℚ) : ℝ) ^ 2) := by
  have h1 : pl.integrate keysUpLeft dt =
      (pl.true_pos.1 - pl.speed * dt, pl.true_pos.2 - pl.speed * dt) := by
    rw [integrate_eq]
    have : dirSum keysUpLeft = (-1, -1) := rfl
    rw [this]
    refine Prod.ext_iff.mpr ⟨?_, ?_⟩ <;> dsimp only <;> push_cast <;> ring
  have h2 : pl.integrate keysLeftOnly dt =
      (pl.true_pos.1 - pl.speed * dt, pl.true_pos.2) := by
    rw [integrate_eq]
    have : dirSum keysLeftOnly = (-1, 0) := rfl
    rw [this]
    refine Prod.ext_iff.mpr ⟨?_, ?_⟩ <;> dsimp only <;> push_cast <;> ring
  have key : ∀ a : ℝ, Real.sqrt (a ^ 2 + a ^ 2) = Real.sqrt 2 * Real.sqrt (a ^ 2 + 0) := by
    intro a
    rw [add_zero, ← two_mul, Real.sqrt_mul (by norm_num)]
  rw [h1, h2]
  convert key (-(((pl.speed * dt : ℚ) : ℝ))) using 2 <;> push_cast <;> ring

/-- Witness for C3 at the initial player with `dt = 1`. -/
theorem diagonal_displacement_sqrt_two_witness :
    (0 : ℚ) < 1 ∧
      Real.sqrt
          ((((mkPlayer (rectCenter screenRect) 300).integrate keysUpLeft 1).1 -
                (mkPlayer (rectCenter screenRect) 300).true_pos.1 : ℚ) ^ 2 +
            (((mkPlayer (rectCenter screenRect) 300).integrate keysUpLeft 1).2 -
                (mkPlayer (rectCenter screenRect) 300).true_pos.2 : ℚ) ^ 2) =
        Real.sqrt 2 *
          Real.sqrt
            ((((mkPlayer (rectCenter screenRect) 300).integrate keysLeftOnly 1).1 -
                  (mkPlayer (rectCenter screenRect) 300).true_pos.1 : ℚ) ^ 2 +
              (((mkPlayer (rectCenter screenRect) 300).integrate keysLeftOnly 1).2 -
                  (mkPlayer (rectCenter screenRect) 300).true_pos.2 : ℚ) ^ 2) :=
  ⟨zero_lt_one, by
    have h := diagonal_displacement_sqrt_two (mkPlayer (rectCenter screenRect) 300) 1 zero_lt_one
    push_cast at h ⊢
    exact h⟩

/-- C4: for every player state whose display rect is in the viewport (and
whose rect agrees with its exact position, an invariant of every reachable
state) and every combination of held keys, `Player.update` with `dt = 0`
changes neither the exact position nor the display position. -/
theorem Player_update_zero_dt_fixed (pl : Player) (keys : Key → Bool) (screen : Rect)
    (hsync : rectCenter pl.rect = (pyInt pl.true_pos.1, pyInt pl.true_pos.2))
    (hcont : rectContains screen pl.rect = true) :
    (pl.update keys screen 0).true_pos = pl.true_pos ∧
      (pl.update keys screen 0).rect = pl.rect := by
  rw [update_of_still pl keys screen 0 (integrate_zero pl keys) hsync hcont]
  exact ⟨rfl, rfl⟩

/-- Witness for C4 at the initial player with up and left held. -/
theorem Player_update_zero_dt_fixed_witness :
    rectCenter (mkPlayer (rectCenter screenRect) 300).rect =
        (pyInt (mkPlayer (rectCenter screenRect) 300).true_pos.1,
         pyInt (mkPlayer (rectCenter screenRect) 300).true_pos.2) ∧
      rectContains screenRect (mkPlayer (rectCenter screenRect) 300).rect = true ∧
      (((mkPlayer (rectCenter screenRect) 300).update keysUpLeft screenRect 0).true_pos =
          (mkPlayer (rectCenter screenRect) 300).true_pos ∧
        ((mkPlayer (rectCenter screenRect) 300).update keysUpLeft screenRect 0).rect =
          (mkPlayer (rectCenter screenRect) 300).rect) :=
  ⟨by decide, by decide,
    Player_update_zero_dt_fixed _ keysUpLeft screenRect (by decide) (by decide)⟩

/-- C5: with no directional key held, `Player.update` is a no-op on both
positions for every `dt ≥ 0` (again for a reachable player state: rect in
the viewport and agreeing with the exact position). -/
theorem Player_update_no_keys_fixed (pl : Player) (screen : Rect) (dt : ℚ) (hdt : 0 ≤ dt)
    (hsync : rectCenter pl.rect = (pyInt pl.true_pos.1, pyInt pl.true_pos.2))
    (hcont : rectContains screen pl.rect = true) :
    (pl.update (fun _ => false) screen dt).true_pos = pl.true_pos ∧
      (pl.update (fun _ => false) screen dt).rect = pl.rect := by
  rw [update_of_still pl (fun _ => false) screen dt (integrate_none pl dt) hsync hcont]
  exact ⟨rfl, rfl⟩

/-- Witness for C5 at the initial player with `dt = 1`. -/
theorem Player_update_no_keys_fixed_witness :
    (0 : ℚ) ≤ 1 ∧
      rectCenter (mkPlayer (rectCenter screenRect) 300).rect =
        (pyInt (mkPlayer (rectCenter screenRect) 300).true_pos.1,
         pyInt (mkPlayer (rectCenter screenRect) 300).true_pos.2) ∧
      rectContains screenRect (mkPlayer (rectCenter screenRect) 300).rect = true ∧
      (((mkPlayer (rectCenter screenRect) 300).update (fun _ => false) screenRect 1).true_pos =
          (mkPlayer (rectCenter screenRect) 300).true_pos ∧
        ((mkPlayer (rectCenter screenRect) 300).update (fun _ => false) screenRect 1).rect =
          (mkPlayer (rectCenter screenRect) 300).rect) :=
  ⟨zero_le_one, by decide, by decide,
    Player_update_no_keys_fixed _ screenRect 1 zero_le_one (by decide) (by decide)⟩

/-- C6: the first iteration of `App.main_loop` passes `dt = 0` to the
update, so the player of the freshly initialised app does not move on the
first frame, whatever keys are held and whatever events arrive. -/
theorem mainLoop_first_frame_zero_dt (keys0 : Key → Bool) (f : Frame) (fs : List Frame) :
    ∃ a1 : AppState,
      (mainLoop (initApp keys0) 0 (f :: fs)).head? = some (0, a1) ∧
        a1.player.true_pos = (initApp keys0).player.true_pos ∧
        a1.player.rect = (initApp keys0).player.rect := by
  have hpl : ∀ k : Key → Bool,
      (mkPlayer (rectCenter screenRect) 300).update k screenRect 0 =
        mkPlayer (rectCenter screenRect) 300 := fun k =>
    update_of_still _ k _ 0 (integrate_zero _ _) (by decide) (by decide)
  refine ⟨render (appUpdate (eventLoop (initApp keys0) f.events) 0), ?_, ?_, ?_⟩
  · simp [mainLoop, initApp]
  · simp only [render, appUpdate, eventLoop_player, eventLoop_screen, initApp]
    rw [hpl]
  · simp only [render, appUpdate, eventLoop_player, eventLoop_screen, initApp]
    rw [hpl]

/-- C7: the main loop never runs an iteration once the quit flag is set,
the quit flag after event polling is set exactly when it was already set
or a QUIT event was polled, and each live iteration polls events, then
updates with the current delta, then renders, then measures the next
delta as `tick / 1000`. -/
theorem mainLoop_runs_until_quit (a : AppState) (dt : ℚ) (frames : List Frame) :
    (a.done = true → mainLoop a dt frames = []) ∧
      (∀ evs : List Ev, (eventLoop a evs).done = (a.done || evs.any isQuit)) ∧
      (∀ (f : Frame) (fs : List Frame), a.done = false →
        mainLoop a dt (f :: fs) =
          (dt, render (appUpdate (eventLoop a f.events) dt)) ::
            mainLoop (render (appUpdate (eventLoop a f.events) dt)) (f.tick / 1000) fs) := by
  refine ⟨?_, fun evs => eventLoop_done a evs, ?_⟩
  · intro h
    cases frames with
    | nil => rfl
    | cons f fs => simp [mainLoop, h]
  · intro f fs h
    simp [mainLoop, h]

/-- Witness for C7: a finished app runs no iteration; a QUIT event sets the
flag; a live app runs one iteration in event-update-render order. -/
theorem mainLoop_runs_until_quit_witness :
    mainLoop
        { done := true, keys := fun _ => false,
          player := mkPlayer (rectCenter screenRect) 300, screen_rect := screenRect }
        5 [Frame.mk [] 16] = [] ∧
      (eventLoop (initApp fun _ => false) [Ev.quit]).done =
        ((initApp fun _ => false).done || [Ev.quit].any isQuit) ∧
      mainLoop (initApp fun _ => false) 0 [Frame.mk [] 16] =
        (0, render (appUpdate (eventLoop (initApp fun _ => false) (Frame.mk [] 16).events) 0)) ::
          mainLoop (render (appUpdate (eventLoop (initApp fun _ => false) (Frame.mk [] 16).events) 0))
            ((Frame.mk [] 16).tick / 1000) [] :=
  ⟨(mainLoop_runs_until_quit _ 5 [Frame.mk [] 16]).1 rfl,
   (mainLoop_runs_until_quit (initApp fun _ => false) 0 []).2.1 [Ev.quit],
   (mainLoop_runs_until_quit (initApp fun _ => false) 0 [Frame.mk [] 16]).2.2
     (Frame.mk [] 16) [] rfl⟩

/-- C8: when the display rect is already contained in the viewport,
`Player.clamp` is the identity: the exact position keeps its fractional
part and the rect is untouched. -/
theorem Player_clamp_noop_on_screen (pl : Player) (screen : Rect)
    (h : rectContains screen pl.rect = true) :
    pl.clamp screen = pl :=
  clamp_of_contains pl screen h

/-- Witness for C8 at the initial player in the real screen. -/
theorem Player_clamp_noop_on_screen_witness :
    rectContains screenRect (mkPlayer (rectCenter screenRect) 300).rect = true ∧
      (mkPlayer (rectCenter screenRect) 300).clamp screenRect =
        mkPlayer (rectCenter screenRect) 300 :=
  ⟨by decide, Player_clamp_noop_on_screen _ screenRect (by decide)⟩

/-- C9: whenever clamping occurs, the exact position is reset to the
integer center of the clamped rect, so both of its coordinates are whole
numbers afterwards. -/
theorem Player_clamp_resync_integer_center (pl : Player) (screen : Rect)
    (h : rectContains screen pl.rect = false) :
    (pl.clamp screen).true_pos =
        (((rectCenter (pl.clamp screen).rect).1 : ℚ),
         ((rectCenter (pl.clamp screen).rect).2 : ℚ)) ∧
      ∃ m n : ℤ, (pl.clamp screen).true_pos = ((m : ℚ), (n : ℚ)) := by
  have hcl : pl.clamp screen =
      { pl with rect := rectClamp pl.rect screen,
                true_pos := (((rectCenter (rectClamp pl.rect screen)).1 : ℚ),
                             ((rectCenter (rectClamp pl.rect screen)).2 : ℚ)) } := by
    rw [Player.clamp]
    simp [h]
  rw [hcl]
  exact ⟨rfl,
    (rectCenter (rectClamp pl.rect screen)).1, (rectCenter (rectClamp pl.rect screen)).2, rfl⟩

/-- Witness for C9 at a player pushed past the right edge with a
fractional exact position. -/
theorem Player_clamp_resync_integer_center_witness :
    rectContains screenRect (Rect.mk 600 450 100 100) = false ∧
      ((Player.mk 0 (Rect.mk 600 450 100 100) (1 / 2, 650) 300).clamp screenRect).true_pos =
          (((rectCenter
              ((Player.mk 0 (Rect.mk 600 450 100 100) (1 / 2, 650) 300).clamp
                screenRect).rect).1 : ℚ),
           ((rectCenter
              ((Player.mk 0 (Rect.mk 600 450 100 100) (1 / 2, 650) 300).clamp
                screenRect).rect).2 : ℚ)) ∧
        ∃ m n : ℤ,
          ((Player.mk 0 (Rect.mk 600 450 100 100) (1 / 2, 650) 300).clamp screenRect).true_pos =
            ((m : ℚ), (n : ℚ)) :=
  ⟨by decide,
    Player_clamp_resync_integer_center
      (Player.mk 0 (Rect.mk 600 450 100 100) (1 / 2, 650) 300) screenRect (by decide)⟩

/-- C10: `Player.update` and `Player.clamp` leave the speed and image
fields unchanged, and `Player.draw` leaves the whole player unchanged. -/
theorem Player_update_touches_only_position (pl : Player) (keys : Key → Bool) (screen : Rect)
    (dt : ℚ) (surface : List ℕ) :
    (pl.update keys screen dt).speed = pl.speed ∧
      (pl.update keys screen dt).image = pl.image ∧
      (pl.clamp screen).speed = pl.speed ∧
      (pl.clamp screen).image = pl.image ∧
      (pl.draw surface).1 = pl := by
  have hcl : ∀ q : Player, (q.clamp screen).speed = q.speed ∧ (q.clamp screen).image = q.image := by
    intro q
    rw [Player.clamp]
    split <;> exact ⟨rfl, rfl⟩
  refine ⟨?_, ?_, (hcl pl).1, (hcl pl).2, rfl⟩
  · rw [Player.update]
    exact (hcl _).1
  · rw [Player.update]
    exact (hcl _).2

end DtExample
